import Mathlib

/-!
Verification of the function-pipes repository
(src/function_pipes/with_paramspec/function_pipes.py).

The development shallowly embeds the part of the Python AST that the
rewriter manipulates, together with the three visitors of the source
file (the argument-use counter, the lambda extractor and the pipe
transformer), the orchestrating fast_pipes decorator, the runtime pipe
dispatcher, the unbounded-arity fallback and the bridge adapter.  An
evaluator with an explicit call trace gives runtime meaning to the
rewritten trees so that evaluation-order properties can be settled.
-/

set_option maxHeartbeats 1000000

/-- Expression contexts of the Python AST (Load and Store are the two
the source constructs). -/
inductive PyCtx where
  | Load
  | Store
deriving DecidableEq, Repr

/-- The fragment of the Python expression AST used by the rewriter:
name references, integer constants, single-parameter lambdas, calls,
walrus bindings (NamedExpr), binary operations, conditional
expressions, starred (spread) expressions and attribute accesses.
Source positions are not modelled. -/
inductive PyExpr where
  | Name (id : String) (ctx : PyCtx)
  | Constant (n : Int)
  | Lambda (arg : String) (body : PyExpr)
  | Call (func : PyExpr) (args : List PyExpr)
  | NamedExpr (target : PyExpr) (value : PyExpr)
  | BinOp (left : PyExpr) (op : Bool) (right : PyExpr)
  | IfExp (test : PyExpr) (body : PyExpr) (orelse : PyExpr)
  | Starred (value : PyExpr)
  | Attribute (value : PyExpr) (attr : String)

mutual

/-- `_CountLambdaArgUses`: the NodeVisitor threads the running count
`self.uses`; `visit_Name` increments it when the id matches the lambda
argument and `generic_visit` descends into every child node, including
the bodies of nested lambdas (the visitor has no scope handling). -/
def countVisit (a : String) : PyExpr → Nat → Nat
  | .Name id _, u => if id = a then u + 1 else u
  | .Constant _, u => u
  | .Lambda _ b, u => countVisit a b u
  | .Call f args, u => countVisitList a args (countVisit a f u)
  | .NamedExpr t v, u => countVisit a v (countVisit a t u)
  | .BinOp l _ r, u => countVisit a r (countVisit a l u)
  | .IfExp t b e, u => countVisit a e (countVisit a b (countVisit a t u))
  | .Starred v, u => countVisit a v u
  | .Attribute v _, u => countVisit a v u

/-- Child lists (call arguments) are visited left to right. -/
def countVisitList (a : String) : List PyExpr → Nat → Nat
  | [], u => u
  | e :: es, u => countVisitList a es (countVisit a e u)

end

/-- `_CountLambdaArgUses(func).check()`: count of references to the
lambda argument `a` in the lambda body, starting from zero. -/
def countLambdaArgUses (a : String) (body : PyExpr) : Nat :=
  countVisit a body 0

mutual

/-- Plain structural count of `Name` nodes whose id is `a`, over the
whole tree (nested lambda bodies included). -/
def refCount (a : String) : PyExpr → Nat
  | .Name id _ => if id = a then 1 else 0
  | .Constant _ => 0
  | .Lambda _ b => refCount a b
  | .Call f args => refCount a f + refCountList a args
  | .NamedExpr t v => refCount a t + refCount a v
  | .BinOp l _ r => refCount a l + refCount a r
  | .IfExp t b e => refCount a t + refCount a b + refCount a e
  | .Starred v => refCount a v
  | .Attribute v _ => refCount a v

/-- Structural count over a list of expressions. -/
def refCountList (a : String) : List PyExpr → Nat
  | [] => 0
  | e :: es => refCount a e + refCountList a es

end

mutual

/-- The count described by the specification sentence for the
argument-use counter: references at the own scope level of the literal,
not descending into nested function literals that shadow the same
parameter name. -/
def scopedRefCount (a : String) : PyExpr → Nat
  | .Name id _ => if id = a then 1 else 0
  | .Constant _ => 0
  | .Lambda p b => if p = a then 0 else scopedRefCount a b
  | .Call f args => scopedRefCount a f + scopedRefCountList a args
  | .NamedExpr t v => scopedRefCount a t + scopedRefCount a v
  | .BinOp l _ r => scopedRefCount a l + scopedRefCount a r
  | .IfExp t b e => scopedRefCount a t + scopedRefCount a b + scopedRefCount a e
  | .Starred v => scopedRefCount a v
  | .Attribute v _ => scopedRefCount a v

/-- Scoped count over a list of expressions. -/
def scopedRefCountList (a : String) : List PyExpr → Nat
  | [] => 0
  | e :: es => scopedRefCount a e + scopedRefCountList a es

end

/-- Error message raised by `_LambdaExtractor.visit_Name` when a later
argument reference is met and no subsequent value was supplied. -/
def msgMultiRef : String := "This lambda contains multiple references to the arg"

/-- Error message raised by `_PipeTransformer.visit_Call` for a lambda
stage with zero references to its argument (note the final stop). -/
def msgNoArgs : String := "This lambda has no arguments."

/-- The reserved hidden binding name used for multi-use lambda stages. -/
def tempVar : String := "_pipe_temp_var"

mutual

/-- `_LambdaExtractor.visit` as a state-threading function: the Bool is
`visit_count == 0` flipped to `true` once the first matching name has
been replaced by `val`; later matches become `subq` when supplied and
otherwise raise ValueError.  A replacement node is returned as is and
is not visited (NodeTransformer does not revisit returned nodes). -/
def exVisit (a : String) (val : PyExpr) (subq : Option PyExpr) :
    PyExpr → Bool → Except String (PyExpr × Bool)
  | .Name id c, seen =>
      if id = a then
        if seen = false then .ok (val, true)
        else
          match subq with
          | some s => .ok (s, seen)
          | none => .error msgMultiRef
      else .ok (.Name id c, seen)
  | .Constant n, seen => .ok (.Constant n, seen)
  | .Lambda p b, seen =>
      match exVisit a val subq b seen with
      | .ok (b2, s2) => .ok (.Lambda p b2, s2)
      | .error e => .error e
  | .Call f args, seen =>
      match exVisit a val subq f seen with
      | .ok (f2, s1) =>
          match exVisitList a val subq args s1 with
          | .ok (args2, s2) => .ok (.Call f2 args2, s2)
          | .error e => .error e
      | .error e => .error e
  | .NamedExpr t v, seen =>
      match exVisit a val subq t seen with
      | .ok (t2, s1) =>
          match exVisit a val subq v s1 with
          | .ok (v2, s2) => .ok (.NamedExpr t2 v2, s2)
          | .error e => .error e
      | .error e => .error e
  | .BinOp l o r, seen =>
      match exVisit a val subq l seen with
      | .ok (l2, s1) =>
          match exVisit a val subq r s1 with
          | .ok (r2, s2) => .ok (.BinOp l2 o r2, s2)
          | .error e => .error e
      | .error e => .error e
  | .IfExp t b e, seen =>
      match exVisit a val subq t seen with
      | .ok (t2, s1) =>
          match exVisit a val subq b s1 with
          | .ok (b2, s2) =>
              match exVisit a val subq e s2 with
              | .ok (e2, s3) => .ok (.IfExp t2 b2 e2, s3)
              | .error err => .error err
          | .error err => .error err
      | .error err => .error err
  | .Starred v, seen =>
      match exVisit a val subq v seen with
      | .ok (v2, s1) => .ok (.Starred v2, s1)
      | .error e => .error e
  | .Attribute v at2, seen =>
      match exVisit a val subq v seen with
      | .ok (v2, s1) => .ok (.Attribute v2 at2, s1)
      | .error e => .error e

/-- Child lists are visited left to right, threading the seen flag. -/
def exVisitList (a : String) (val : PyExpr) (subq : Option PyExpr) :
    List PyExpr → Bool → Except String (List PyExpr × Bool)
  | [], seen => .ok ([], seen)
  | e :: es, seen =>
      match exVisit a val subq e seen with
      | .ok (e2, s1) =>
          match exVisitList a val subq es s1 with
          | .ok (es2, s2) => .ok (e2 :: es2, s2)
          | .error err => .error err
      | .error err => .error err

end

/-- `_LambdaExtractor.extract_and_replace`: runs the visitor on the
lambda body and then returns `self._lambda.body`.  Since the visitor
replaces nodes only inside their parents (in place), a body that is
itself a bare Name node is returned unreplaced, whereas for any other
body the in-place result coincides with the value the visitor returns. -/
def lambdaExtract (a : String) (body val : PyExpr) (subq : Option PyExpr) :
    Except String PyExpr :=
  match body with
  | .Name id c => .ok (.Name id c)
  | b =>
      match exVisit a val subq b false with
      | .ok (b2, _) => .ok b2
      | .error e => .error e

mutual

/-- Replacement in spec terms: the k-th reference to the parameter in
body traversal order becomes `val` when k = 0 and `sub2` otherwise,
threading the number of references seen so far. -/
def replaceGo (a : String) (val sub2 : PyExpr) : PyExpr → Nat → PyExpr × Nat
  | .Name id c, k =>
      if id = a then (if k = 0 then val else sub2, k + 1) else (.Name id c, k)
  | .Constant n, k => (.Constant n, k)
  | .Lambda p b, k =>
      let r := replaceGo a val sub2 b k
      (.Lambda p r.1, r.2)
  | .Call f args, k =>
      let r1 := replaceGo a val sub2 f k
      let r2 := replaceGoList a val sub2 args r1.2
      (.Call r1.1 r2.1, r2.2)
  | .NamedExpr t v, k =>
      let r1 := replaceGo a val sub2 t k
      let r2 := replaceGo a val sub2 v r1.2
      (.NamedExpr r1.1 r2.1, r2.2)
  | .BinOp l o r, k =>
      let r1 := replaceGo a val sub2 l k
      let r2 := replaceGo a val sub2 r r1.2
      (.BinOp r1.1 o r2.1, r2.2)
  | .IfExp t b e, k =>
      let r1 := replaceGo a val sub2 t k
      let r2 := replaceGo a val sub2 b r1.2
      let r3 := replaceGo a val sub2 e r2.2
      (.IfExp r1.1 r2.1 r3.1, r3.2)
  | .Starred v, k =>
      let r := replaceGo a val sub2 v k
      (.Starred r.1, r.2)
  | .Attribute v at2, k =>
      let r := replaceGo a val sub2 v k
      (.Attribute r.1 at2, r.2)

/-- List version of `replaceGo`, left to right. -/
def replaceGoList (a : String) (val sub2 : PyExpr) :
    List PyExpr → Nat → List PyExpr × Nat
  | [], k => ([], k)
  | e :: es, k =>
      let r1 := replaceGo a val sub2 e k
      let r2 := replaceGoList a val sub2 es r1.2
      (r1.1 :: r2.1, r2.2)

end

/-- The Parameter Substitution Engine as the specification words it:
return the body of the literal with the first parameter reference (in body
traversal order) replaced by `val` and every later reference replaced
by the subsequent replacement; when the literal references its
parameter more than once and no subsequent replacement is supplied,
fail with an error instead of returning. -/
def specSubst (a : String) (val : PyExpr) (subq : Option PyExpr)
    (body : PyExpr) : Except String PyExpr :=
  match subq with
  | some s => .ok (replaceGo a val s body 0).1
  | none =>
      if 2 ≤ refCount a body then
        .error "literal references its argument more than once but no subsequent replacement was supplied"
      else .ok (replaceGo a val val body 0).1

/-- Stage shape test: is the stage a lambda literal. -/
def isLambdaE : PyExpr → Bool
  | .Lambda _ _ => true
  | _ => false

/-- Stage shape test: is the stage a starred (spread) expression. -/
def isStarredE : PyExpr → Bool
  | .Starred _ => true
  | _ => false

/-- Stage shape test: a lambda stage whose body has zero references to
its parameter, as counted by `_CountLambdaArgUses`. -/
def isZeroUseLambda : PyExpr → Bool
  | .Lambda a b => countLambdaArgUses a b = 0
  | _ => false

/-- Expression shape test: is the expression a bare name node. -/
def isNameE : PyExpr → Bool
  | .Name _ _ => true
  | _ => false

/-- A lambda whose body is a bare name node: the shape on which the
in-place slice of `extract_and_replace` never splices the replacement
in, discarding the accumulated expression.  A lambda whose body is a
bare starred expression is grouped here as well; Python cannot even
parse that shape, so excluding it costs nothing. -/
def isBareLambda : PyExpr → Bool
  | .Lambda _ (.Name _ _) => true
  | .Lambda _ (.Starred _) => true
  | _ => false

/-- The stage loop of `_PipeTransformer.visit_Call`: fold the stage
list over the accumulated value.  A lambda stage is counted and then
inlined (one use) or bound through a walrus on `_pipe_temp_var` (two
or more uses); a zero-use lambda raises ValueError; any other stage is
wrapped as a plain nested call. -/
def pipeFold : PyExpr → List PyExpr → Except String PyExpr
  | value, [] => .ok value
  | value, f :: rest =>
      match f with
      | .Lambda a b =>
          let usage := countLambdaArgUses a b
          if usage = 0 then .error msgNoArgs
          else if usage = 1 then
            match lambdaExtract a b value none with
            | .ok v2 => pipeFold v2 rest
            | .error e => .error e
          else
            match lambdaExtract a b
                (.NamedExpr (.Name tempVar .Store) value)
                (some (.Name tempVar .Load)) with
            | .ok v2 => pipeFold v2 rest
            | .error e => .error e
      | g => pipeFold (.Call g [value]) rest

mutual

/-- `_PipeTransformer` over a whole expression: every Call node is
dispatched to `visit_Call`, which reads `node.func.id` (an
AttributeError when the callee is not a plain name), folds pipe call
sites without revisiting the result, and recurses into every other
node. -/
def transformExpr : PyExpr → Except String PyExpr
  | .Call (.Name id c) args =>
      if id = "pipe" then
        match args with
        | [] => .error "IndexError: list index out of range"
        | v :: fs => pipeFold v fs
      else
        match transformList args with
        | .ok args2 => .ok (.Call (.Name id c) args2)
        | .error e => .error e
  | .Call _ _ => .error "AttributeError: object has no attribute id"
  | .Name id c => .ok (.Name id c)
  | .Constant n => .ok (.Constant n)
  | .Lambda p b =>
      match transformExpr b with
      | .ok b2 => .ok (.Lambda p b2)
      | .error e => .error e
  | .NamedExpr t v =>
      match transformExpr t with
      | .ok t2 =>
          match transformExpr v with
          | .ok v2 => .ok (.NamedExpr t2 v2)
          | .error e => .error e
      | .error e => .error e
  | .BinOp l o r =>
      match transformExpr l with
      | .ok l2 =>
          match transformExpr r with
          | .ok r2 => .ok (.BinOp l2 o r2)
          | .error e => .error e
      | .error e => .error e
  | .IfExp t b e =>
      match transformExpr t with
      | .ok t2 =>
          match transformExpr b with
          | .ok b2 =>
              match transformExpr e with
              | .ok e2 => .ok (.IfExp t2 b2 e2)
              | .error err => .error err
          | .error err => .error err
      | .error err => .error err
  | .Starred v =>
      match transformExpr v with
      | .ok v2 => .ok (.Starred v2)
      | .error e => .error e
  | .Attribute v at2 =>
      match transformExpr v with
      | .ok v2 => .ok (.Attribute v2 at2)
      | .error e => .error e

/-- Transform a list of child expressions left to right. -/
def transformList : List PyExpr → Except String (List PyExpr)
  | [] => .ok []
  | e :: es =>
      match transformExpr e with
      | .ok e2 =>
          match transformList es with
          | .ok es2 => .ok (e2 :: es2)
          | .error err => .error err
      | .error err => .error err

end

mutual

/-- CPython acceptance of starred expressions in our fragment: a
Starred node is legal only directly in a call argument position; the
compiler rejects it anywhere else with the syntax error that
`fast_pipes` remaps. -/
def badStar : PyExpr → Bool
  | .Starred _ => true
  | .Call f args => badStar f || badStarArgs args
  | .Name _ _ => false
  | .Constant _ => false
  | .Lambda _ b => badStar b
  | .NamedExpr t v => badStar t || badStar v
  | .BinOp l _ r => badStar l || badStar r
  | .IfExp t b e => badStar t || badStar b || badStar e
  | .Attribute v _ => badStar v

/-- Call argument positions: a top-level Starred argument is legal,
its payload is checked normally. -/
def badStarArgs : List PyExpr → Bool
  | [] => false
  | .Starred v :: rest => badStar v || badStarArgs rest
  | e :: rest => badStar e || badStarArgs rest

end

/-- The decorator filter of `fast_pipes` (the list comprehension):
keep `d` when `isinstance(d, Call) and d.func.id != "fast_pipes" or
isinstance(d, Name) and d.id != "fast_pipes"`.  Reading `d.func.id`
on a call whose callee is not a plain name raises AttributeError, and
any decorator that is neither a Call nor a Name fails both sides of
the disjunction and is dropped. -/
def keepDecorator : PyExpr → Except String Bool
  | .Call (.Name id _) _ => .ok (id ≠ "fast_pipes")
  | .Call _ _ => .error "AttributeError: object has no attribute id"
  | .Name id _ => .ok (id ≠ "fast_pipes")
  | _ => .ok false

/-- The rebuilt decorator list, in order. -/
def stripDecorators : List PyExpr → Except String (List PyExpr)
  | [] => .ok []
  | d :: rest =>
      match keepDecorator d with
      | .ok keep =>
          match stripDecorators rest with
          | .ok rest2 => .ok (if keep then d :: rest2 else rest2)
          | .error e => .error e
      | .error e => .error e

/-- The self-triggering marker, written with or without invocation
parentheses. -/
def isFastPipesMarker : PyExpr → Bool
  | .Name id _ => id = "fast_pipes"
  | .Call (.Name id _) _ => id = "fast_pipes"
  | _ => false

/-- Decorator shapes the stripping comprehension understands: a plain
name or a call of a plain name. -/
def isSimpleDecorator : PyExpr → Bool
  | .Name _ _ => true
  | .Call (.Name _ _) _ => true
  | _ => false

/-- List-of-characters matcher: does `s` start with `pat`. -/
def leadsWith : List Char → List Char → Bool
  | [], _ => true
  | _ :: _, [] => false
  | a :: as2, b :: bs => a = b && leadsWith as2 bs

/-- List-of-characters matcher: does `pat` occur inside `s`. -/
def hasSubList (pat : List Char) : List Char → Bool
  | [] => pat.isEmpty
  | c :: rest => leadsWith pat (c :: rest) || hasSubList pat rest

/-- Substring test on strings (`"pipe(" in e.text`). -/
def containsStr (s pat : String) : Bool :=
  hasSubList pat.data s.data

/-- The syntax error message CPython produces for a starred expression
outside an argument position. -/
def msgStarredCompile : String := "can\x27t use starred expression here"

/-- The message `fast_pipes` substitutes for that failure. -/
def msgStarredFast : String :=
  "pipe can\x27t take a starred expression as an argument when fast_pipes is used."

/-- The `except SyntaxError` handler of `fast_pipes`: the message is
rewritten exactly when it is the starred-expression failure and the
offending source line contains `pipe(`. -/
def remapStarError (msg text : String) : String :=
  if msg = msgStarredCompile ∧ containsStr text "pipe(" = true then
    msgStarredFast
  else msg

/-- A decorated function definition as `fast_pipes` sees it: its name,
its decorator list, its body (modelled as the single returned
expression) and the text of the source line carrying the pipe call
site.  Node positions are copied from the stage nodes of the call (the
`copy_position` calls), so when recompilation rejects a starred stage,
the SyntaxError reports this line as `e.text`; it is used only for the
error remap condition. -/
structure FuncDef where
  name : String
  decorator_list : List PyExpr
  body : PyExpr
  sourceLine : String

/-- `fast_pipes`: rename the definition, strip the self-triggering
marker from the decorator list, rewrite every pipe call site, and
compile; compilation of a tree holding a starred expression outside an
argument position fails with the remapped syntax error.  Retrieving
the source, position fixing and the final exec/bind are not modelled
(an `.ok` result stands for the rewritten function bound in the
original scope). -/
def fast_pipes (f : FuncDef) : Except String FuncDef :=
  let newName := f.name ++ "_fast_pipe"
  match stripDecorators f.decorator_list with
  | .error e => .error e
  | .ok decs =>
      match transformExpr f.body with
      | .error e => .error e
      | .ok body2 =>
          if badStar body2 then
            .error (remapStarError msgStarredCompile f.sourceLine)
          else .ok ⟨newName, decs, body2, f.sourceLine⟩

/-- Lookup of a variable in the evaluation scope (innermost binding
first). -/
def lookupVar (vars : List (String × Int)) (id : String) : Option Int :=
  match vars with
  | [] => none
  | (k, v) :: rest => if k = id then some v else lookupVar rest id

/-- Evaluation of the embedded expression fragment over integers.
`fenv` supplies the named unary functions in scope (the pipeline
stages); `vars` is the local variable scope.  The result carries the
trace of named-function applications, in order, so that how many times
an effectful upstream stage runs is observable, together with either a
NameError-style failure or the value and the updated scope (a walrus
binds its target).  Evaluation order is the CPython one: left operand
before right, test before the taken branch, argument before the call,
and nothing in the untaken branch of a conditional. -/
def evalPy (fenv : String → Option (Int → Int)) :
    List (String × Int) → PyExpr →
    List String × Except String (Int × List (String × Int))
  | vars, .Constant n => ([], .ok (n, vars))
  | vars, .Name id _ =>
      match lookupVar vars id with
      | some v => ([], .ok (v, vars))
      | none => ([], .error ("NameError: " ++ id))
  | vars, .BinOp l op r =>
      match evalPy fenv vars l with
      | (t1, .error e) => (t1, .error e)
      | (t1, .ok (v1, vars1)) =>
          match evalPy fenv vars1 r with
          | (t2, .error e) => (t1 ++ t2, .error e)
          | (t2, .ok (v2, vars2)) =>
              (t1 ++ t2, .ok (if op then v1 + v2 else v1 * v2, vars2))
  | vars, .IfExp t b e =>
      match evalPy fenv vars t with
      | (t1, .error err) => (t1, .error err)
      | (t1, .ok (tv, vars1)) =>
          if tv = 0 then
            match evalPy fenv vars1 e with
            | (t2, r) => (t1 ++ t2, r)
          else
            match evalPy fenv vars1 b with
            | (t2, r) => (t1 ++ t2, r)
  | vars, .NamedExpr (.Name tn _) v =>
      match evalPy fenv vars v with
      | (t1, .error e) => (t1, .error e)
      | (t1, .ok (vv, vars1)) => (t1, .ok (vv, (tn, vv) :: vars1))
  | vars, .Call (.Name fn _) [arg] =>
      match fenv fn with
      | none => ([], .error ("NameError: " ++ fn))
      | some g =>
          match evalPy fenv vars arg with
          | (t1, .error e) => (t1, .error e)
          | (t1, .ok (av, vars1)) => (t1 ++ [fn], .ok (g av, vars1))
  | vars, .Call (.Lambda p b) [arg] =>
      match evalPy fenv vars arg with
      | (t1, .error e) => (t1, .error e)
      | (t1, .ok (av, vars1)) =>
          match evalPy fenv ((p, av) :: vars1) b with
          | (t2, .error e) => (t1 ++ t2, .error e)
          | (t2, .ok (bv, _)) => (t1 ++ t2, .ok (bv, vars1))
  | _, _ => ([], .error "TypeError: unsupported expression")

/-- The runtime dispatcher `pipe`: up to twenty optional unary
functions applied to a value through the elif chain `if not op0:
return value elif not op1: return op0(value) ...`; a missing (None,
falsy) operator at position k returns the nesting of the first k
operators and ignores any later ones, exactly as the source chain
does. -/
def pipe {A : Type} (value : A)
    (op0 op1 op2 op3 op4 op5 op6 op7 op8 op9 op10 op11 op12 op13 op14 op15 op16 op17 op18 op19 : Option (A → A)) : A :=
  match op0, op1, op2, op3, op4, op5, op6, op7, op8, op9, op10, op11, op12, op13, op14, op15, op16, op17, op18, op19 with
  | none, _, _, _, _, _, _, _, _, _, _, _, _, _, _, _, _, _, _, _ => value
  | some f0, none, _, _, _, _, _, _, _, _, _, _, _, _, _, _, _, _, _, _ => f0 (value)
  | some f0, some f1, none, _, _, _, _, _, _, _, _, _, _, _, _, _, _, _, _, _ => f1 (f0 (value))
  | some f0, some f1, some f2, none, _, _, _, _, _, _, _, _, _, _, _, _, _, _, _, _ => f2 (f1 (f0 (value)))
  | some f0, some f1, some f2, some f3, none, _, _, _, _, _, _, _, _, _, _, _, _, _, _, _ => f3 (f2 (f1 (f0 (value))))
  | some f0, some f1, some f2, some f3, some f4, none, _, _, _, _, _, _, _, _, _, _, _, _, _, _ => f4 (f3 (f2 (f1 (f0 (value)))))
  | some f0, some f1, some f2, some f3, some f4, some f5, none, _, _, _, _, _, _, _, _, _, _, _, _, _ => f5 (f4 (f3 (f2 (f1 (f0 (value))))))
  | some f0, some f1, some f2, some f3, some f4, some f5, some f6, none, _, _, _, _, _, _, _, _, _, _, _, _ => f6 (f5 (f4 (f3 (f2 (f1 (f0 (value)))))))
  | some f0, some f1, some f2, some f3, some f4, some f5, some f6, some f7, none, _, _, _, _, _, _, _, _, _, _, _ => f7 (f6 (f5 (f4 (f3 (f2 (f1 (f0 (value))))))))
  | some f0, some f1, some f2, some f3, some f4, some f5, some f6, some f7, some f8, none, _, _, _, _, _, _, _, _, _, _ => f8 (f7 (f6 (f5 (f4 (f3 (f2 (f1 (f0 (value)))))))))
  | some f0, some f1, some f2, some f3, some f4, some f5, some f6, some f7, some f8, some f9, none, _, _, _, _, _, _, _, _, _ => f9 (f8 (f7 (f6 (f5 (f4 (f3 (f2 (f1 (f0 (value))))))))))
  | some f0, some f1, some f2, some f3, some f4, some f5, some f6, some f7, some f8, some f9, some f10, none, _, _, _, _, _, _, _, _ => f10 (f9 (f8 (f7 (f6 (f5 (f4 (f3 (f2 (f1 (f0 (value)))))))))))
  | some f0, some f1, some f2, some f3, some f4, some f5, some f6, some f7, some f8, some f9, some f10, some f11, none, _, _, _, _, _, _, _ => f11 (f10 (f9 (f8 (f7 (f6 (f5 (f4 (f3 (f2 (f1 (f0 (value))))))))))))
  | some f0, some f1, some f2, some f3, some f4, some f5, some f6, some f7, some f8, some f9, some f10, some f11, some f12, none, _, _, _, _, _, _ => f12 (f11 (f10 (f9 (f8 (f7 (f6 (f5 (f4 (f3 (f2 (f1 (f0 (value)))))))))))))
  | some f0, some f1, some f2, some f3, some f4, some f5, some f6, some f7, some f8, some f9, some f10, some f11, some f12, some f13, none, _, _, _, _, _ => f13 (f12 (f11 (f10 (f9 (f8 (f7 (f6 (f5 (f4 (f3 (f2 (f1 (f0 (value))))))))))))))
  | some f0, some f1, some f2, some f3, some f4, some f5, some f6, some f7, some f8, some f9, some f10, some f11, some f12, some f13, some f14, none, _, _, _, _ => f14 (f13 (f12 (f11 (f10 (f9 (f8 (f7 (f6 (f5 (f4 (f3 (f2 (f1 (f0 (value)))))))))))))))
  | some f0, some f1, some f2, some f3, some f4, some f5, some f6, some f7, some f8, some f9, some f10, some f11, some f12, some f13, some f14, some f15, none, _, _, _ => f15 (f14 (f13 (f12 (f11 (f10 (f9 (f8 (f7 (f6 (f5 (f4 (f3 (f2 (f1 (f0 (value))))))))))))))))
  | some f0, some f1, some f2, some f3, some f4, some f5, some f6, some f7, some f8, some f9, some f10, some f11, some f12, some f13, some f14, some f15, some f16, none, _, _ => f16 (f15 (f14 (f13 (f12 (f11 (f10 (f9 (f8 (f7 (f6 (f5 (f4 (f3 (f2 (f1 (f0 (value)))))))))))))))))
  | some f0, some f1, some f2, some f3, some f4, some f5, some f6, some f7, some f8, some f9, some f10, some f11, some f12, some f13, some f14, some f15, some f16, some f17, none, _ => f17 (f16 (f15 (f14 (f13 (f12 (f11 (f10 (f9 (f8 (f7 (f6 (f5 (f4 (f3 (f2 (f1 (f0 (value))))))))))))))))))
  | some f0, some f1, some f2, some f3, some f4, some f5, some f6, some f7, some f8, some f9, some f10, some f11, some f12, some f13, some f14, some f15, some f16, some f17, some f18, none => f18 (f17 (f16 (f15 (f14 (f13 (f12 (f11 (f10 (f9 (f8 (f7 (f6 (f5 (f4 (f3 (f2 (f1 (f0 (value)))))))))))))))))))
  | some f0, some f1, some f2, some f3, some f4, some f5, some f6, some f7, some f8, some f9, some f10, some f11, some f12, some f13, some f14, some f15, some f16, some f17, some f18, some f19 => f19 (f18 (f17 (f16 (f15 (f14 (f13 (f12 (f11 (f10 (f9 (f8 (f7 (f6 (f5 (f4 (f3 (f2 (f1 (f0 (value))))))))))))))))))))

/-- `arbitary_length_pipe`: fold an arbitrary list of functions over a
value with ordinary sequential iteration. -/
def arbitary_length_pipe {A : Type} (value : A) (funcs : List (A → A)) : A :=
  funcs.foldl (fun v f => f v) value

/-- Calling the dispatcher on a value and a list of at most twenty
functions passed positionally: slot k receives the k-th function when
there is one and the default None otherwise. -/
def pipeOfList {A : Type} (value : A) (fs : List (A → A)) : A :=
  pipe value fs[0]? fs[1]? fs[2]? fs[3]? fs[4]? fs[5]? fs[6]? fs[7]?
    fs[8]? fs[9]? fs[10]? fs[11]? fs[12]? fs[13]? fs[14]? fs[15]?
    fs[16]? fs[17]? fs[18]? fs[19]?

/-- `pipe_bridge`: wrap a side-effecting inspection function so that it
does its job and then hands the original value down the chain.  The
inspection function is modelled state-passingly: it consumes the value
and the world state and returns its (discarded) result and the new
state. -/
def pipe_bridge {A S B : Type} (func : A → S → B × S) : A → S → A × S :=
  fun value s =>
    let r := func value s
    (value, r.2)

/-- A function environment binding the two named stages used in the
concrete pipelines: `add_one` and the effect-observable upstream stage
`up`, both the successor function on integers. -/
def fenv1 : String → Option (Int → Int) :=
  fun s =>
    if s = "add_one" then some (fun n => n + 1)
    else if s = "up" then some (fun n => n + 1)
    else none

/-- The call site `pipe(12, add_one, lambda x: x)`. -/
def c1Body : PyExpr :=
  .Call (.Name "pipe" .Load)
    [.Constant 12, .Name "add_one" .Load, .Lambda "x" (.Name "x" .Load)]

/-- A decorated function returning `pipe(12, add_one, lambda x: x)`. -/
def c1Func : FuncDef :=
  ⟨"example_one", [.Name "fast_pipes" .Load], c1Body,
    "return pipe(12, add_one, lambda x: x)"⟩

/-- The lambda body `(0 if 1 else x) + x`: two references to `x`, the
first of which sits in the untaken branch of the conditional. -/
def c2LamBody : PyExpr :=
  .BinOp (.IfExp (.Constant 1) (.Constant 0) (.Name "x" .Load)) true
    (.Name "x" .Load)

/-- The call site `pipe(7, up, lambda x: (0 if 1 else x) + x)`. -/
def c2Body : PyExpr :=
  .Call (.Name "pipe" .Load)
    [.Constant 7, .Name "up" .Load, .Lambda "x" c2LamBody]

/-- A decorated function returning that call. -/
def c2Func : FuncDef :=
  ⟨"example_two", [.Name "fast_pipes" .Load], c2Body,
    "return pipe(7, up, lambda x: (0 if 1 else x) + x)"⟩

/-- Ordinary application of the same lambda to the upstream value:
`(lambda x: (0 if 1 else x) + x)(up(7))`. -/
def c2Ordinary : PyExpr :=
  .Call (.Lambda "x" c2LamBody) [.Call (.Name "up" .Load) [.Constant 7]]

/-- The tree the transformer produces for the lambda stage of
`c2Body`: the walrus lands on the first reference in traversal order,
inside the untaken branch of the conditional. -/
def c2Rewritten : PyExpr :=
  .BinOp
    (.IfExp (.Constant 1) (.Constant 0)
      (.NamedExpr (.Name tempVar .Store) (.Call (.Name "up" .Load) [.Constant 7])))
    true (.Name tempVar .Load)

/-- A decorated function returning `pipe(1, add_one, *fs)`: a starred
expression as a stage argument. -/
def c3Func : FuncDef :=
  ⟨"example_star", [.Name "fast_pipes" .Load],
    .Call (.Name "pipe" .Load)
      [.Constant 1, .Name "add_one" .Load, .Starred (.Name "fs" .Load)],
    "return pipe(1, add_one, *fs)"⟩

/-- A decorated function returning `pipe(1, lambda x: 5, *fs)`: a
zero-use lambda stage alongside the starred stage, so the zero-use
ValueError preempts the starred compile failure. -/
def c3PreemptFunc : FuncDef :=
  ⟨"example_star_zero", [.Name "fast_pipes" .Load],
    .Call (.Name "pipe" .Load)
      [.Constant 1, .Lambda "x" (.Constant 5), .Starred (.Name "fs" .Load)],
    "return pipe(1, lambda x: 5, *fs)"⟩

/-- A decorated function returning `pipe(1, *fs, lambda x: x)`: the
bare-name-body lambda after the starred stage discards the accumulated
expression, starred failure included, so decoration succeeds and the
failure moves to call time. -/
def c3SwallowFunc : FuncDef :=
  ⟨"example_star_swallow", [.Name "fast_pipes" .Load],
    .Call (.Name "pipe" .Load)
      [.Constant 1, .Starred (.Name "fs" .Load), .Lambda "x" (.Name "x" .Load)],
    "return pipe(1, *fs, lambda x: x)"⟩

/-- A decorated function returning `pipe(1, lambda x: 5)`: a lambda
stage with zero references to its parameter. -/
def c4Func : FuncDef :=
  ⟨"example_zero", [.Name "fast_pipes" .Load],
    .Call (.Name "pipe" .Load) [.Constant 1, .Lambda "x" (.Constant 5)],
    "return pipe(1, lambda x: 5)"⟩

/-- The body of `lambda x: (lambda x: x)(x)`: one reference at the
own scope level of the literal, one inside a nested literal that shadows
the parameter. -/
def c5Body : PyExpr :=
  .Call (.Lambda "x" (.Name "x" .Load)) [.Name "x" .Load]

/-- The decorator `@functools.cache`, an attribute reference (neither a
plain name nor a call of a plain name). -/
def c6AttrDec : PyExpr := .Attribute (.Name "functools" .Load) "cache"

/-- A decorator list mixing the marker in both spellings with two
other decorators of the shapes the comprehension understands. -/
def c6Decs : List PyExpr :=
  [.Name "staticmethod" .Load, .Name "fast_pipes" .Load,
   .Call (.Name "fast_pipes" .Load) [], .Call (.Name "wraps" .Load) [.Name "g" .Load]]

mutual

/-- The visitor count is the accumulator plus the structural count. -/
theorem countVisit_eq_add (a : String) : ∀ (e : PyExpr) (u : Nat),
    countVisit a e u = u + refCount a e
  | .Name id c, u => by
      by_cases h : id = a <;> simp [countVisit, refCount, h]
  | .Constant n, u => by simp [countVisit, refCount]
  | .Lambda p b, u => by
      simp only [countVisit, refCount]
      exact countVisit_eq_add a b u
  | .Call f args, u => by
      simp only [countVisit, refCount]
      rw [countVisitList_eq_add a args _, countVisit_eq_add a f u]
      omega
  | .NamedExpr t v, u => by
      simp only [countVisit, refCount]
      rw [countVisit_eq_add a v _, countVisit_eq_add a t u]
      omega
  | .BinOp l o r, u => by
      simp only [countVisit, refCount]
      rw [countVisit_eq_add a r _, countVisit_eq_add a l u]
      omega
  | .IfExp t b e, u => by
      simp only [countVisit, refCount]
      rw [countVisit_eq_add a e _, countVisit_eq_add a b _, countVisit_eq_add a t u]
      omega
  | .Starred v, u => by
      simp only [countVisit, refCount]
      exact countVisit_eq_add a v u
  | .Attribute v at2, u => by
      simp only [countVisit, refCount]
      exact countVisit_eq_add a v u

/-- List version of the accumulator identity. -/
theorem countVisitList_eq_add (a : String) : ∀ (es : List PyExpr) (u : Nat),
    countVisitList a es u = u + refCountList a es
  | [], u => by simp [countVisitList, refCountList]
  | e :: es, u => by
      simp only [countVisitList, refCountList]
      rw [countVisitList_eq_add a es _, countVisit_eq_add a e u]
      omega

end

/-- The check of `_CountLambdaArgUses` equals the structural count. -/
theorem countLambdaArgUses_eq (a : String) (body : PyExpr) :
    countLambdaArgUses a body = refCount a body := by
  simpa [countLambdaArgUses] using countVisit_eq_add a body 0

/-- Bool bookkeeping for threading the seen flag through two
successive children. -/
theorem or_decide_pos (b : Bool) (m n : Nat) :
    ((b || decide (0 < m)) || decide (0 < n)) = (b || decide (0 < m + n)) := by
  cases b <;> by_cases hm : 0 < m <;> by_cases hn : 0 < n <;>
    simp [hm, hn]


mutual

/-- With a subsequent value supplied the extractor never fails, and
the outgoing seen flag records whether any reference was met. -/
theorem exVisit_some_ok (a : String) (val s : PyExpr) :
    ∀ (e : PyExpr) (seen : Bool),
      ∃ e2, exVisit a val (some s) e seen = .ok (e2, seen || decide (0 < refCount a e))
  | .Name id c, seen => by
      by_cases h : id = a
      · cases seen with
        | false => exact ⟨val, by simp [exVisit, refCount, h]⟩
        | true => exact ⟨s, by simp [exVisit, refCount, h]⟩
      · exact ⟨.Name id c, by simp [exVisit, refCount, h]⟩
  | .Constant n, seen => ⟨.Constant n, by simp [exVisit, refCount]⟩
  | .Lambda p b, seen => by
      obtain ⟨b2, hb⟩ := exVisit_some_ok a val s b seen
      exact ⟨.Lambda p b2, by simp only [refCount]; simp [exVisit, hb]⟩
  | .Call f args, seen => by
      obtain ⟨f2, hf⟩ := exVisit_some_ok a val s f seen
      obtain ⟨as2, ha⟩ := exVisitList_some_ok a val s args
        (seen || decide (0 < refCount a f))
      rw [or_decide_pos seen _ _] at ha
      exact ⟨.Call f2 as2, by simp only [refCount]; simp [exVisit, hf, ha]⟩
  | .NamedExpr t v, seen => by
      obtain ⟨t2, ht⟩ := exVisit_some_ok a val s t seen
      obtain ⟨v2, hv⟩ := exVisit_some_ok a val s v
        (seen || decide (0 < refCount a t))
      rw [or_decide_pos seen _ _] at hv
      exact ⟨.NamedExpr t2 v2, by simp only [refCount]; simp [exVisit, ht, hv]⟩
  | .BinOp l o r, seen => by
      obtain ⟨l2, hl⟩ := exVisit_some_ok a val s l seen
      obtain ⟨r2, hr⟩ := exVisit_some_ok a val s r
        (seen || decide (0 < refCount a l))
      rw [or_decide_pos seen _ _] at hr
      exact ⟨.BinOp l2 o r2, by simp only [refCount]; simp [exVisit, hl, hr]⟩
  | .IfExp t b e, seen => by
      obtain ⟨t2, ht⟩ := exVisit_some_ok a val s t seen
      obtain ⟨b2, hb⟩ := exVisit_some_ok a val s b
        (seen || decide (0 < refCount a t))
      rw [or_decide_pos seen _ _] at hb
      obtain ⟨e2, he⟩ := exVisit_some_ok a val s e
        (seen || decide (0 < (refCount a t + refCount a b)))
      rw [or_decide_pos seen _ _] at he
      exact ⟨.IfExp t2 b2 e2, by simp only [refCount]; simp only [exVisit, ht, hb, he]⟩
  | .Starred v, seen => by
      obtain ⟨v2, hv⟩ := exVisit_some_ok a val s v seen
      exact ⟨.Starred v2, by simp only [refCount]; simp [exVisit, hv]⟩
  | .Attribute v at2, seen => by
      obtain ⟨v2, hv⟩ := exVisit_some_ok a val s v seen
      exact ⟨.Attribute v2 at2, by simp only [refCount]; simp [exVisit, hv]⟩

/-- List version: with a subsequent value the walk never fails. -/
theorem exVisitList_some_ok (a : String) (val s : PyExpr) :
    ∀ (es : List PyExpr) (seen : Bool),
      ∃ es2, exVisitList a val (some s) es seen =
        .ok (es2, seen || decide (0 < refCountList a es))
  | [], seen => ⟨[], by simp [exVisitList, refCountList]⟩
  | e :: es, seen => by
      obtain ⟨e2, he⟩ := exVisit_some_ok a val s e seen
      obtain ⟨es2, hes⟩ := exVisitList_some_ok a val s es
        (seen || decide (0 < refCount a e))
      rw [or_decide_pos seen _ _] at hes
      exact ⟨e2 :: es2, by simp only [refCountList]; simp [exVisitList, he, hes]⟩

end

/-- Arithmetic step for threading the seen flag: if at most one
reference remains counting the flag, then after a child with m
references has been visited, at most one remains for a sibling with n
references, counting the updated flag. -/
theorem seen_step (m n : Nat) (seen : Bool)
    (h : m + n + (if seen then 1 else 0) ≤ 1) :
    n + (if (seen || decide (0 < m)) then 1 else 0) ≤ 1 := by
  cases seen <;> by_cases hm : 0 < m <;> simp [hm] at h ⊢ <;> omega

mutual

/-- With no subsequent value, the extractor succeeds as long as the
references it can still meet number at most one; the outgoing seen
flag records whether a reference has been consumed. -/
theorem exVisit_none_ok (a : String) (val : PyExpr) :
    ∀ (e : PyExpr) (seen : Bool),
      refCount a e + (if seen then 1 else 0) ≤ 1 →
      ∃ e2, exVisit a val none e seen = .ok (e2, seen || decide (0 < refCount a e))
  | .Name id c, seen => by
      intro hle
      by_cases h : id = a
      · cases seen with
        | true => simp [refCount, h] at hle
        | false => exact ⟨val, by simp [exVisit, refCount, h]⟩
      · exact ⟨.Name id c, by simp [exVisit, refCount, h]⟩
  | .Constant n, seen => fun _ => ⟨.Constant n, by simp [exVisit, refCount]⟩
  | .Lambda p b, seen => by
      intro hle
      simp only [refCount] at hle ⊢
      obtain ⟨b2, hb⟩ := exVisit_none_ok a val b seen hle
      exact ⟨.Lambda p b2, by simp [exVisit, hb]⟩
  | .Call f args, seen => by
      intro hle
      simp only [refCount] at hle ⊢
      obtain ⟨f2, hf⟩ := exVisit_none_ok a val f seen (by omega)
      obtain ⟨as2, ha⟩ := exVisitList_none_ok a val args
        (seen || decide (0 < refCount a f))
        (seen_step (refCount a f) (refCountList a args) seen hle)
      rw [or_decide_pos seen _ _] at ha
      exact ⟨.Call f2 as2, by simp [exVisit, hf, ha]⟩
  | .NamedExpr t v, seen => by
      intro hle
      simp only [refCount] at hle ⊢
      obtain ⟨t2, ht⟩ := exVisit_none_ok a val t seen (by omega)
      obtain ⟨v2, hv⟩ := exVisit_none_ok a val v
        (seen || decide (0 < refCount a t))
        (seen_step (refCount a t) (refCount a v) seen hle)
      rw [or_decide_pos seen _ _] at hv
      exact ⟨.NamedExpr t2 v2, by simp [exVisit, ht, hv]⟩
  | .BinOp l o r, seen => by
      intro hle
      simp only [refCount] at hle ⊢
      obtain ⟨l2, hl⟩ := exVisit_none_ok a val l seen (by omega)
      obtain ⟨r2, hr⟩ := exVisit_none_ok a val r
        (seen || decide (0 < refCount a l))
        (seen_step (refCount a l) (refCount a r) seen hle)
      rw [or_decide_pos seen _ _] at hr
      exact ⟨.BinOp l2 o r2, by simp [exVisit, hl, hr]⟩
  | .IfExp t b e, seen => by
      intro hle
      simp only [refCount] at hle ⊢
      obtain ⟨t2, ht⟩ := exVisit_none_ok a val t seen (by omega)
      obtain ⟨b2, hb⟩ := exVisit_none_ok a val b
        (seen || decide (0 < refCount a t))
        (seen_step (refCount a t) (refCount a b) seen (by omega))
      rw [or_decide_pos seen _ _] at hb
      obtain ⟨e2, he⟩ := exVisit_none_ok a val e
        (seen || decide (0 < (refCount a t + refCount a b)))
        (seen_step (refCount a t + refCount a b) (refCount a e) seen (by omega))
      rw [or_decide_pos seen _ _] at he
      exact ⟨.IfExp t2 b2 e2, by simp only [exVisit, ht, hb, he]⟩
  | .Starred v, seen => by
      intro hle
      simp only [refCount] at hle ⊢
      obtain ⟨v2, hv⟩ := exVisit_none_ok a val v seen hle
      exact ⟨.Starred v2, by simp [exVisit, hv]⟩
  | .Attribute v at2, seen => by
      intro hle
      simp only [refCount] at hle ⊢
      obtain ⟨v2, hv⟩ := exVisit_none_ok a val v seen hle
      exact ⟨.Attribute v2 at2, by simp [exVisit, hv]⟩

/-- List version of the no-subsequent success lemma. -/
theorem exVisitList_none_ok (a : String) (val : PyExpr) :
    ∀ (es : List PyExpr) (seen : Bool),
      refCountList a es + (if seen then 1 else 0) ≤ 1 →
      ∃ es2, exVisitList a val none es seen =
        .ok (es2, seen || decide (0 < refCountList a es))
  | [], seen => fun _ => ⟨[], by simp [exVisitList, refCountList]⟩
  | e :: es, seen => by
      intro hle
      simp only [refCountList] at hle ⊢
      obtain ⟨e2, he⟩ := exVisit_none_ok a val e seen (by omega)
      obtain ⟨es2, hes⟩ := exVisitList_none_ok a val es
        (seen || decide (0 < refCount a e))
        (seen_step (refCount a e) (refCountList a es) seen hle)
      rw [or_decide_pos seen _ _] at hes
      exact ⟨e2 :: es2, by simp [exVisitList, he, hes]⟩

end

/-- `extract_and_replace` succeeds whenever the underlying visit does
(and always when the body is a bare name, which is then returned
unreplaced). -/
theorem lambdaExtract_ok (a : String) (b val : PyExpr) (subq : Option PyExpr)
    (h : ∃ p, exVisit a val subq b false = .ok p) :
    ∃ v2, lambdaExtract a b val subq = .ok v2 := by
  cases b
  case Name id c => exact ⟨.Name id c, rfl⟩
  all_goals
    obtain ⟨⟨e2, s2⟩, hp⟩ := h
    exact ⟨e2, by simp [lambdaExtract, hp]⟩

/-- A one-use lambda body is always extracted successfully. -/
theorem lambdaExtract_one_use (a : String) (b val : PyExpr)
    (h : countLambdaArgUses a b = 1) :
    ∃ v2, lambdaExtract a b val none = .ok v2 := by
  refine lambdaExtract_ok a b val none ?_
  rw [countLambdaArgUses_eq] at h
  obtain ⟨e2, he⟩ := exVisit_none_ok a val b false (by simp [h])
  exact ⟨_, he⟩

/-- With a subsequent value (the multi-use path), extraction always
succeeds. -/
theorem lambdaExtract_subq_ok (a : String) (b val s : PyExpr) :
    ∃ v2, lambdaExtract a b val (some s) = .ok v2 := by
  obtain ⟨e2, he⟩ := exVisit_some_ok a val s b false
  exact lambdaExtract_ok a b val (some s) ⟨_, he⟩

/-- A non-lambda stage is folded by plain call wrapping. -/
theorem pipeFold_cons_nonlambda (g : PyExpr) (hg : isLambdaE g = false)
    (value : PyExpr) (rest : List PyExpr) :
    pipeFold value (g :: rest) = pipeFold (.Call g [value]) rest := by
  cases g <;> simp [isLambdaE] at hg ⊢ <;> simp [pipeFold]

/-- If some stage of the list is a zero-use lambda, the fold raises
the ValueError of the zero-use validation, whatever else the list
holds. -/
theorem pipeFold_zero_use : ∀ (fs : List PyExpr) (value : PyExpr),
    (∃ g ∈ fs, isZeroUseLambda g = true) →
    pipeFold value fs = .error msgNoArgs := by
  intro fs
  induction fs with
  | nil => intro value h; simp at h
  | cons g rest ih =>
      intro value h
      obtain ⟨g0, hg0mem, hg0⟩ := h
      by_cases hL : isLambdaE g = true
      · cases g with
        | Lambda a b =>
            by_cases h0 : countLambdaArgUses a b = 0
            · simp [pipeFold, h0]
            · have hrest : ∃ g2 ∈ rest, isZeroUseLambda g2 = true := by
                rcases List.mem_cons.mp hg0mem with hhead | htail
                · subst hhead
                  simp [isZeroUseLambda, h0] at hg0
                · exact ⟨g0, htail, hg0⟩
              by_cases h1 : countLambdaArgUses a b = 1
              · obtain ⟨v2, hv⟩ := lambdaExtract_one_use a b value h1
                simpa [pipeFold, h0, h1, hv] using ih v2 hrest
              · obtain ⟨v2, hv⟩ := lambdaExtract_subq_ok a b
                  (.NamedExpr (.Name tempVar .Store) value) (.Name tempVar .Load)
                simpa [pipeFold, h0, h1, hv] using ih v2 hrest
        | _ => simp [isLambdaE] at hL
      · have hrest : ∃ g2 ∈ rest, isZeroUseLambda g2 = true := by
          rcases List.mem_cons.mp hg0mem with hhead | htail
          · subst hhead
            cases g0 <;> simp [isLambdaE] at hL <;> simp [isZeroUseLambda] at hg0
          · exact ⟨g0, htail, hg0⟩
        rw [pipeFold_cons_nonlambda g (by simpa using hL) value rest]
        exact ih _ hrest

/-- A single non-starred call argument that holds a misplaced star
makes the argument list bad. -/
theorem badStarArgs_single (acc : PyExpr) (hns : isStarredE acc = false)
    (hb : badStar acc = true) : badStarArgs [acc] = true := by
  cases acc
  case Starred v => simp [isStarredE] at hns
  all_goals
    simp only [badStarArgs]
    simp [hb]

/-- Wrapping a non-starred expression that already holds a misplaced
star keeps the misplaced star. -/
theorem badStar_wrap (g acc : PyExpr) (hns : isStarredE acc = false)
    (hb : badStar acc = true) : badStar (.Call g [acc]) = true := by
  have harg := badStarArgs_single acc hns hb
  simp [badStar, harg]

/-- The decorator comprehension on decorators written as plain names
or calls of plain names: exactly the fast_pipes markers are removed
and all the other decorators are kept in order. -/
theorem stripDecorators_simple : ∀ (ds : List PyExpr),
    (∀ d ∈ ds, isSimpleDecorator d = true) →
    stripDecorators ds = .ok (ds.filter (fun d => !(isFastPipesMarker d))) := by
  intro ds
  induction ds with
  | nil => intro _; rfl
  | cons d rest ih =>
      intro h
      have hd := h d (by simp)
      have hrest := ih (fun d2 hd2 => h d2 (by simp [hd2]))
      cases d with
      | Name id c =>
          by_cases hid : id = "fast_pipes" <;>
            simp [stripDecorators, keepDecorator, isFastPipesMarker, hid,
              hrest, List.filter_cons]
      | Call f args =>
          cases f with
          | Name id c =>
              by_cases hid : id = "fast_pipes" <;>
                simp [stripDecorators, keepDecorator, isFastPipesMarker, hid,
                  hrest, List.filter_cons]
          | _ => simp [isSimpleDecorator] at hd
      | _ => simp [isSimpleDecorator] at hd

/-- A cons argument list is bad whenever its tail is bad, whatever
the head. -/
theorem badStarArgs_cons_tail (x : PyExpr) (r : List PyExpr)
    (h : badStarArgs r = true) : badStarArgs (x :: r) = true := by
  cases x <;> simp [badStarArgs, h]

/-- On a non-starred head the argument-list check is the plain
disjunction. -/
theorem badStarArgs_cons_nonStarred (x : PyExpr) (r : List PyExpr)
    (h : isStarredE x = false) :
    badStarArgs (x :: r) = (badStar x || badStarArgs r) := by
  cases x
  case Starred v => simp [isStarredE] at h
  all_goals simp only [badStarArgs]

/-- A successful visit from an unseen state keeps a non-starred root
non-starred (only a replaced root name could change the head, and the
replacement value is non-starred by hypothesis). -/
theorem exVisit_shape (a : String) (val : PyExpr) (subq : Option PyExpr)
    (hvns : isStarredE val = false) :
    ∀ (e e2 : PyExpr) (s2 : Bool), isStarredE e = false →
      exVisit a val subq e false = .ok (e2, s2) → isStarredE e2 = false
  | .Name id c, e2, s2 => by
      intro hse h
      by_cases hid : id = a
      · simp [exVisit, hid] at h
        obtain ⟨h1, h2⟩ := h
        subst h1
        exact hvns
      · simp [exVisit, hid] at h
        obtain ⟨h1, h2⟩ := h
        subst h1
        rfl
  | .Constant n, e2, s2 => by
      intro hse h
      simp [exVisit] at h
      obtain ⟨h1, h2⟩ := h
      subst h1
      rfl
  | .Lambda p b, e2, s2 => by
      intro hse h
      cases hb : exVisit a val subq b false with
      | error err => simp [exVisit, hb] at h
      | ok q =>
          obtain ⟨b2, sb⟩ := q
          simp only [exVisit, hb, Except.ok.injEq, Prod.mk.injEq] at h
          obtain ⟨h1, h2⟩ := h
          subst h1
          rfl
  | .Call f args, e2, s2 => by
      intro hse h
      cases hf : exVisit a val subq f false with
      | error err => simp [exVisit, hf] at h
      | ok p =>
          obtain ⟨f2, s1⟩ := p
          cases ha : exVisitList a val subq args s1 with
          | error err => simp [exVisit, hf, ha] at h
          | ok q =>
              obtain ⟨as2, sl⟩ := q
              simp only [exVisit, hf, ha, Except.ok.injEq, Prod.mk.injEq] at h
              obtain ⟨h1, h2⟩ := h
              subst h1
              rfl
  | .NamedExpr t v, e2, s2 => by
      intro hse h
      cases ht : exVisit a val subq t false with
      | error err => simp [exVisit, ht] at h
      | ok p =>
          obtain ⟨t2, s1⟩ := p
          cases hv : exVisit a val subq v s1 with
          | error err => simp [exVisit, ht, hv] at h
          | ok q =>
              obtain ⟨v2, sv⟩ := q
              simp only [exVisit, ht, hv, Except.ok.injEq, Prod.mk.injEq] at h
              obtain ⟨h1, h2⟩ := h
              subst h1
              rfl
  | .BinOp l o r, e2, s2 => by
      intro hse h
      cases hl : exVisit a val subq l false with
      | error err => simp [exVisit, hl] at h
      | ok p =>
          obtain ⟨l2, s1⟩ := p
          cases hr : exVisit a val subq r s1 with
          | error err => simp [exVisit, hl, hr] at h
          | ok q =>
              obtain ⟨r2, sr⟩ := q
              simp only [exVisit, hl, hr, Except.ok.injEq, Prod.mk.injEq] at h
              obtain ⟨h1, h2⟩ := h
              subst h1
              rfl
  | .IfExp t b e, e2, s2 => by
      intro hse h
      cases ht : exVisit a val subq t false with
      | error err => simp [exVisit, ht] at h
      | ok p =>
          obtain ⟨t2, s1⟩ := p
          cases hbb : exVisit a val subq b s1 with
          | error err => simp [exVisit, ht, hbb] at h
          | ok q =>
              obtain ⟨b2, sb⟩ := q
              cases he : exVisit a val subq e sb with
              | error err => simp [exVisit, ht, hbb, he] at h
              | ok w =>
                  obtain ⟨e3, se⟩ := w
                  simp only [exVisit, ht, hbb, he, Except.ok.injEq,
                    Prod.mk.injEq] at h
                  obtain ⟨h1, h2⟩ := h
                  subst h1
                  rfl
  | .Starred v, e2, s2 => by
      intro hse h
      simp [isStarredE] at hse
  | .Attribute v at2, e2, s2 => by
      intro hse h
      cases hv : exVisit a val subq v false with
      | error err => simp [exVisit, hv] at h
      | ok p =>
          obtain ⟨v2, sv⟩ := p
          simp only [exVisit, hv, Except.ok.injEq, Prod.mk.injEq] at h
          obtain ⟨h1, h2⟩ := h
          subst h1
          rfl

mutual

/-- If the replacement value itself holds a misplaced star (and is not
a bare starred node), then any visit from an unseen state that did
replace a reference produces a tree holding a misplaced star: the
first replacement splices the value at a position the star check
reaches. -/
theorem exVisit_badStar (a : String) (val : PyExpr) (subq : Option PyExpr)
    (hvns : isStarredE val = false) (hvb : badStar val = true) :
    ∀ (e e2 : PyExpr) (s2 : Bool),
      exVisit a val subq e false = .ok (e2, s2) → s2 = true → badStar e2 = true
  | .Name id c, e2, s2 => by
      intro h hs2
      by_cases hid : id = a
      · simp [exVisit, hid] at h
        obtain ⟨h1, h2⟩ := h
        subst h1
        exact hvb
      · simp [exVisit, hid] at h
        obtain ⟨h1, h2⟩ := h
        subst hs2
        simp at h2
  | .Constant n, e2, s2 => by
      intro h hs2
      simp [exVisit] at h
      obtain ⟨h1, h2⟩ := h
      subst hs2
      simp at h2
  | .Lambda p b, e2, s2 => by
      intro h hs2
      cases hb : exVisit a val subq b false with
      | error err => simp [exVisit, hb] at h
      | ok q =>
          obtain ⟨b2, sb⟩ := q
          simp only [exVisit, hb, Except.ok.injEq, Prod.mk.injEq] at h
          obtain ⟨h1, h2⟩ := h
          subst h1; subst h2
          have := exVisit_badStar a val subq hvns hvb b b2 sb hb hs2
          simpa [badStar] using this
  | .Call f args, e2, s2 => by
      intro h hs2
      cases hf : exVisit a val subq f false with
      | error err => simp [exVisit, hf] at h
      | ok p =>
          obtain ⟨f2, s1⟩ := p
          cases ha : exVisitList a val subq args s1 with
          | error err => simp [exVisit, hf, ha] at h
          | ok q =>
              obtain ⟨as2, sl⟩ := q
              simp only [exVisit, hf, ha, Except.ok.injEq, Prod.mk.injEq] at h
              obtain ⟨h1, h2⟩ := h
              subst h1; subst h2
              cases s1 with
              | true =>
                  have := exVisit_badStar a val subq hvns hvb f f2 true hf rfl
                  simp [badStar, this]
              | false =>
                  have := exVisitList_badStar a val subq hvns hvb args as2 sl ha hs2
                  simp [badStar, this]
  | .NamedExpr t v, e2, s2 => by
      intro h hs2
      cases ht : exVisit a val subq t false with
      | error err => simp [exVisit, ht] at h
      | ok p =>
          obtain ⟨t2, s1⟩ := p
          cases hv : exVisit a val subq v s1 with
          | error err => simp [exVisit, ht, hv] at h
          | ok q =>
              obtain ⟨v2, sv⟩ := q
              simp only [exVisit, ht, hv, Except.ok.injEq, Prod.mk.injEq] at h
              obtain ⟨h1, h2⟩ := h
              subst h1; subst h2
              cases s1 with
              | true =>
                  have := exVisit_badStar a val subq hvns hvb t t2 true ht rfl
                  simp [badStar, this]
              | false =>
                  have := exVisit_badStar a val subq hvns hvb v v2 sv hv hs2
                  simp [badStar, this]
  | .BinOp l o r, e2, s2 => by
      intro h hs2
      cases hl : exVisit a val subq l false with
      | error err => simp [exVisit, hl] at h
      | ok p =>
          obtain ⟨l2, s1⟩ := p
          cases hr : exVisit a val subq r s1 with
          | error err => simp [exVisit, hl, hr] at h
          | ok q =>
              obtain ⟨r2, sr⟩ := q
              simp only [exVisit, hl, hr, Except.ok.injEq, Prod.mk.injEq] at h
              obtain ⟨h1, h2⟩ := h
              subst h1; subst h2
              cases s1 with
              | true =>
                  have := exVisit_badStar a val subq hvns hvb l l2 true hl rfl
                  simp [badStar, this]
              | false =>
                  have := exVisit_badStar a val subq hvns hvb r r2 sr hr hs2
                  simp [badStar, this]
  | .IfExp t b e, e2, s2 => by
      intro h hs2
      cases ht : exVisit a val subq t false with
      | error err => simp [exVisit, ht] at h
      | ok p =>
          obtain ⟨t2, s1⟩ := p
          cases hbb : exVisit a val subq b s1 with
          | error err => simp [exVisit, ht, hbb] at h
          | ok q =>
              obtain ⟨b2, sb⟩ := q
              cases he : exVisit a val subq e sb with
              | error err => simp [exVisit, ht, hbb, he] at h
              | ok w =>
                  obtain ⟨e3, se⟩ := w
                  simp only [exVisit, ht, hbb, he, Except.ok.injEq,
                    Prod.mk.injEq] at h
                  obtain ⟨h1, h2⟩ := h
                  subst h1; subst h2
                  cases s1 with
                  | true =>
                      have := exVisit_badStar a val subq hvns hvb t t2 true ht rfl
                      simp [badStar, this]
                  | false =>
                      cases sb with
                      | true =>
                          have := exVisit_badStar a val subq hvns hvb b b2 true hbb rfl
                          simp [badStar, this]
                      | false =>
                          have := exVisit_badStar a val subq hvns hvb e e3 se he hs2
                          simp [badStar, this]
  | .Starred v, e2, s2 => by
      intro h hs2
      cases hv : exVisit a val subq v false with
      | error err => simp [exVisit, hv] at h
      | ok p =>
          obtain ⟨v2, sv⟩ := p
          simp only [exVisit, hv, Except.ok.injEq, Prod.mk.injEq] at h
          obtain ⟨h1, h2⟩ := h
          subst h1
          simp [badStar]
  | .Attribute v at2, e2, s2 => by
      intro h hs2
      cases hv : exVisit a val subq v false with
      | error err => simp [exVisit, hv] at h
      | ok p =>
          obtain ⟨v2, sv⟩ := p
          simp only [exVisit, hv, Except.ok.injEq, Prod.mk.injEq] at h
          obtain ⟨h1, h2⟩ := h
          subst h1; subst h2
          have := exVisit_badStar a val subq hvns hvb v v2 sv hv hs2
          simpa [badStar] using this

/-- List version: a replacing walk over call arguments from an unseen
state leaves a misplaced star among the rewritten arguments. -/
theorem exVisitList_badStar (a : String) (val : PyExpr) (subq : Option PyExpr)
    (hvns : isStarredE val = false) (hvb : badStar val = true) :
    ∀ (es : List PyExpr) (es2 : List PyExpr) (s2 : Bool),
      exVisitList a val subq es false = .ok (es2, s2) → s2 = true →
      badStarArgs es2 = true
  | [], es2, s2 => by
      intro h hs2
      simp [exVisitList] at h
      obtain ⟨h1, h2⟩ := h
      subst hs2
      simp at h2
  | e :: es, es2, s2 => by
      intro h hs2
      cases he : exVisit a val subq e false with
      | error err => simp [exVisitList, he] at h
      | ok p =>
          obtain ⟨e2h, s1⟩ := p
          cases hes : exVisitList a val subq es s1 with
          | error err => simp [exVisitList, he, hes] at h
          | ok q =>
              obtain ⟨es2t, st⟩ := q
              simp only [exVisitList, he, hes, Except.ok.injEq,
                Prod.mk.injEq] at h
              obtain ⟨h1, h2⟩ := h
              subst h1; subst h2
              cases s1 with
              | true =>
                  cases e with
                  | Starred v =>
                      cases hv : exVisit a val subq v false with
                      | error err => simp [exVisit, hv] at he
                      | ok w =>
                          obtain ⟨v2, sv⟩ := w
                          simp only [exVisit, hv, Except.ok.injEq,
                            Prod.mk.injEq] at he
                          obtain ⟨he1, he2⟩ := he
                          subst he1; subst he2
                          have := exVisit_badStar a val subq hvns hvb v v2 true hv rfl
                          simp [badStarArgs, this]
                  | _ =>
                      have hsh : isStarredE e2h = false := by
                        apply exVisit_shape a val subq hvns _ e2h true _ he
                        simp [isStarredE]
                      have hbs := exVisit_badStar a val subq hvns hvb _ e2h true he rfl
                      rw [badStarArgs_cons_nonStarred e2h es2t hsh, hbs]
                      simp
              | false =>
                  have := exVisitList_badStar a val subq hvns hvb es es2t st hes hs2
                  exact badStarArgs_cons_tail e2h es2t this

end

/-- A lambda that is not bare-bodied has a body that is neither a
bare name nor a bare starred expression. -/
theorem isBareLambda_false_body (a : String) (b : PyExpr)
    (h : isBareLambda (.Lambda a b) = false) :
    isNameE b = false ∧ isStarredE b = false := by
  cases b <;> simp [isBareLambda] at h ⊢ <;> simp [isNameE, isStarredE]

/-- On a body that is not a bare name, `extract_and_replace` returns
exactly what the visit returns. -/
theorem lambdaExtract_visit (a : String) (b val : PyExpr)
    (subq : Option PyExpr) (e2 : PyExpr) (s2 : Bool)
    (hbn : isNameE b = false)
    (h : exVisit a val subq b false = .ok (e2, s2)) :
    lambdaExtract a b val subq = .ok e2 := by
  cases b
  case Name id c => simp [isNameE] at hbn
  all_goals simp [lambdaExtract, h]

/-- Unfolding of the stage loop on a one-use lambda stage. -/
theorem pipeFold_cons_lambda_one (a : String) (b value v2 : PyExpr)
    (rest : List PyExpr) (h1 : countLambdaArgUses a b = 1)
    (hv : lambdaExtract a b value none = .ok v2) :
    pipeFold value (.Lambda a b :: rest) = pipeFold v2 rest := by
  have h0 : ¬ countLambdaArgUses a b = 0 := by omega
  simp [pipeFold, h0, h1, hv]

/-- Unfolding of the stage loop on a multi-use lambda stage. -/
theorem pipeFold_cons_lambda_many (a : String) (b value v2 : PyExpr)
    (rest : List PyExpr) (h2 : 2 ≤ countLambdaArgUses a b)
    (hv : lambdaExtract a b (.NamedExpr (.Name tempVar .Store) value)
        (some (.Name tempVar .Load)) = .ok v2) :
    pipeFold value (.Lambda a b :: rest) = pipeFold v2 rest := by
  have h0 : ¬ countLambdaArgUses a b = 0 := by omega
  have h1 : ¬ countLambdaArgUses a b = 1 := by omega
  simp [pipeFold, h0, h1, hv]

/-- Once the accumulated expression holds a misplaced star, folding
any further stages that are neither zero-use nor bare-bodied lambdas
succeeds and keeps the misplaced star: a plain stage wraps the
accumulator as a call argument, and a lambda stage splices it into the
rewritten body at its first parameter reference. -/
theorem pipeFold_keeps_badStar : ∀ (fs : List PyExpr) (acc : PyExpr),
    (∀ g ∈ fs, isZeroUseLambda g = false) →
    (∀ g ∈ fs, isBareLambda g = false) →
    isStarredE acc = false → badStar acc = true →
    ∃ res, pipeFold acc fs = .ok res ∧ badStar res = true := by
  intro fs
  induction fs with
  | nil => intro acc _ _ _ hb; exact ⟨acc, rfl, hb⟩
  | cons g rest ih =>
      intro acc hz hnb hns hb
      have hzr : ∀ x ∈ rest, isZeroUseLambda x = false :=
        fun x hx => hz x (by simp [hx])
      have hnbr : ∀ x ∈ rest, isBareLambda x = false :=
        fun x hx => hnb x (by simp [hx])
      by_cases hL : isLambdaE g = true
      · cases g with
        | Lambda a b =>
            obtain ⟨hbn, hbs⟩ := isBareLambda_false_body a b (hnb (.Lambda a b) (by simp))
            have hz0 : ¬ countLambdaArgUses a b = 0 := by
              simpa [isZeroUseLambda] using hz (.Lambda a b) (by simp)
            by_cases h1 : countLambdaArgUses a b = 1
            · have hrc : refCount a b = 1 := by
                rw [← countLambdaArgUses_eq]; exact h1
              obtain ⟨e2, he⟩ := exVisit_none_ok a acc b false (by simp [hrc])
              rw [hrc] at he
              have he2 : exVisit a acc none b false = .ok (e2, true) := by
                simpa using he
              have hext := lambdaExtract_visit a b acc none e2 true hbn he2
              have hb2 : badStar e2 = true :=
                exVisit_badStar a acc none hns hb b e2 true he2 rfl
              have hns2 : isStarredE e2 = false :=
                exVisit_shape a acc none hns b e2 true hbs he2
              obtain ⟨res, hres, hbres⟩ := ih e2 hzr hnbr hns2 hb2
              refine ⟨res, ?_, hbres⟩
              rw [pipeFold_cons_lambda_one a b acc e2 rest h1 hext]
              exact hres
            · have h2 : 2 ≤ countLambdaArgUses a b := by omega
              have hrc : 2 ≤ refCount a b := by
                rw [← countLambdaArgUses_eq]; exact h2
              have hWns : isStarredE (.NamedExpr (.Name tempVar .Store) acc) = false := rfl
              have hWb : badStar (.NamedExpr (.Name tempVar .Store) acc) = true := by
                simp [badStar, hb]
              obtain ⟨e2, he⟩ := exVisit_some_ok a
                (.NamedExpr (.Name tempVar .Store) acc) (.Name tempVar .Load) b false
              have hflag : (false || decide (0 < refCount a b)) = true := by
                simp; omega
              rw [hflag] at he
              have hext := lambdaExtract_visit a b
                (.NamedExpr (.Name tempVar .Store) acc)
                (some (.Name tempVar .Load)) e2 true hbn he
              have hb2 : badStar e2 = true :=
                exVisit_badStar a _ _ hWns hWb b e2 true he rfl
              have hns2 : isStarredE e2 = false :=
                exVisit_shape a _ _ hWns b e2 true hbs he
              obtain ⟨res, hres, hbres⟩ := ih e2 hzr hnbr hns2 hb2
              refine ⟨res, ?_, hbres⟩
              rw [pipeFold_cons_lambda_many a b acc e2 rest h2 hext]
              exact hres
        | _ => simp [isLambdaE] at hL
      · have hgl : isLambdaE g = false := by simpa using hL
        have hb2 : badStar (.Call g [acc]) = true := badStar_wrap g acc hns hb
        obtain ⟨res, hres, hbres⟩ := ih (.Call g [acc]) hzr hnbr rfl hb2
        refine ⟨res, ?_, hbres⟩
        rw [pipeFold_cons_nonlambda g hgl acc rest]
        exact hres

/-- A pipe call with a starred stage, no zero-use lambda stage, and no
bare-bodied lambda stage after the star folds successfully into a
tree with a misplaced star — the tree whose compilation the
orchestrator then rejects. -/
theorem pipeFold_star_bad : ∀ (pre : List PyExpr) (sv : PyExpr)
    (post : List PyExpr) (acc : PyExpr),
    (∀ g ∈ pre, isZeroUseLambda g = false) →
    (∀ g ∈ post, isZeroUseLambda g = false) →
    (∀ g ∈ post, isBareLambda g = false) →
    ∃ res, pipeFold acc (pre ++ .Starred sv :: post) = .ok res ∧
      badStar res = true := by
  intro pre
  induction pre with
  | nil =>
      intro sv post acc _ hzp hnbp
      rw [List.nil_append, pipeFold_cons_nonlambda (.Starred sv) rfl acc post]
      exact pipeFold_keeps_badStar post (.Call (.Starred sv) [acc]) hzp hnbp
        rfl (by simp [badStar])
  | cons g pre2 ih =>
      intro sv post acc hzpre hzp hnbp
      have hzpre2 : ∀ x ∈ pre2, isZeroUseLambda x = false :=
        fun x hx => hzpre x (by simp [hx])
      rw [List.cons_append]
      by_cases hL : isLambdaE g = true
      · cases g with
        | Lambda a b =>
            have hz0 : ¬ countLambdaArgUses a b = 0 := by
              simpa [isZeroUseLambda] using hzpre (.Lambda a b) (by simp)
            by_cases h1 : countLambdaArgUses a b = 1
            · obtain ⟨v2, hv⟩ := lambdaExtract_one_use a b acc h1
              rw [pipeFold_cons_lambda_one a b acc v2 _ h1 hv]
              exact ih sv post v2 hzpre2 hzp hnbp
            · have h2 : 2 ≤ countLambdaArgUses a b := by omega
              obtain ⟨v2, hv⟩ := lambdaExtract_subq_ok a b
                (.NamedExpr (.Name tempVar .Store) acc) (.Name tempVar .Load)
              rw [pipeFold_cons_lambda_many a b acc v2 _ h2 hv]
              exact ih sv post v2 hzpre2 hzp hnbp
        | _ => simp [isLambdaE] at hL
      · rw [pipeFold_cons_nonlambda g (by simpa using hL) acc _]
        exact ih sv post (.Call g [acc]) hzpre2 hzp hnbp

/-- C1: the claim asserts that for plain-function stage lists the
rewritten pipeline equals the runtime pipe, and that an appended
one-use lambda stage behaves as an ordinary call on the folded value.
The code breaks the lambda half: for `pipe(12, add_one, lambda x: x)`
the extractor returns the lambda body object itself, so the rewritten
function body is the bare name `x`, which evaluates to a NameError
instead of the folded value 13 that both the runtime dispatcher and
the ordinary lambda call produce. -/
theorem c1_identity_lambda_stage_drops_value :
    fast_pipes c1Func =
      .ok ⟨"example_one_fast_pipe", [], .Name "x" .Load, c1Func.sourceLine⟩ ∧
    evalPy fenv1 [] (.Name "x" .Load) = ([], .error "NameError: x") ∧
    pipe (12 : Int) (some (fun n => n + 1)) (some (fun n => n)) none none
      none none none none none none none none none none none none none
      none none none = 13 ∧
    evalPy fenv1 []
      (.Call (.Lambda "x" (.Name "x" .Load))
        [.Call (.Name "add_one" .Load) [.Constant 12]]) =
      (["add_one"], .ok (13, [])) := by
  refine ⟨rfl, rfl, rfl, rfl⟩

/-- C2: the claim asserts that a multi-use lambda stage evaluates the
accumulated upstream expression exactly once and computes what the
lambda computes.  For `pipe(7, up, lambda x: (0 if 1 else x) + x)` the
rewriter puts the walrus on the first reference in traversal order,
which lies in the untaken branch of the conditional: evaluating the
rewritten body never calls the upstream stage `up` (empty trace, not
one call) and fails with a NameError on the hidden binding, while the
ordinary application calls `up` exactly once and returns 8. -/
theorem c2_conditional_multi_use_lambda_skips_upstream :
    countLambdaArgUses "x" c2LamBody = 2 ∧
    fast_pipes c2Func =
      .ok ⟨"example_two_fast_pipe", [], c2Rewritten, c2Func.sourceLine⟩ ∧
    evalPy fenv1 [] c2Rewritten =
      ([], .error ("NameError: " ++ tempVar)) ∧
    evalPy fenv1 [] c2Ordinary = (["up"], .ok (8, [])) := by
  refine ⟨rfl, rfl, rfl, rfl⟩

/-- C7: the claim states the substitution engine returns the body with
the first parameter reference replaced (further ones becoming the
subsequent replacement, or an error).  When the body is exactly the
parameter reference, `extract_and_replace` returns the body object
unreplaced, diverging from the contract, which demands the
replacement expression itself. -/
theorem c7_root_name_substitution_miss :
    countLambdaArgUses "x" (.Name "x" .Load) = 1 ∧
    lambdaExtract "x" (.Name "x" .Load) (.Constant 5) none =
      .ok (.Name "x" .Load) ∧
    specSubst "x" (.Constant 5) none (.Name "x" .Load) =
      .ok (.Constant 5) := by
  refine ⟨rfl, rfl, rfl⟩

/-- C3 (counterexample): the transformation does fail at decoration
time on a starred stage, but the message it raises speaks of
fast_pipes, not of "the optimization" as the claim quotes it.  The
other two conjunct groups record the two further ways the claim can
fail, which the amendment therefore excludes: a zero-use lambda stage
preempts the starred failure with its own ValueError, and a
bare-name-body lambda after the star discards the accumulated
expression, so decoration succeeds and the failure (an unbound name)
moves to call time. -/
theorem c3_starred_message_counterexample :
    fast_pipes c3Func = .error msgStarredFast ∧
    msgStarredFast ≠
      "pipe can\x27t take a starred expression as an argument when the optimization is used." ∧
    fast_pipes c3PreemptFunc = .error msgNoArgs ∧
    fast_pipes c3SwallowFunc =
      .ok ⟨"example_star_swallow_fast_pipe", [], .Name "x" .Load,
        c3SwallowFunc.sourceLine⟩ ∧
    evalPy fenv1 [] (.Name "x" .Load) = ([], .error "NameError: x") := by
  refine ⟨rfl, by decide, rfl, rfl, rfl⟩

/-- C3 (amended): for every fast_pipes-decorated function containing a
pipe call site with a starred/spread expression as a stage argument —
provided no stage is a lambda with zero references to its parameter
(that validation failure preempts with its own message), no stage
after the starred one is a lambda whose body is a bare name (such a
stage discards the accumulated expression, starred failure included;
bare starred bodies, which Python cannot parse, are grouped with
them), and the call-site source line carries the text pipe(, as any
single-line call site does — the transformation fails at decoration
(module load) time, never at call time (no rewritten function is
produced), and the raised error carries the message naming fast_pipes:
"pipe cannot take a starred expression as an argument when fast_pipes
is used." (with cannot spelled in its contracted form). -/
theorem c3_starred_stage_fails_at_load (f : FuncDef) (c : PyCtx)
    (v sv : PyExpr) (pre post ds : List PyExpr)
    (hb : f.body = .Call (.Name "pipe" c) (v :: (pre ++ .Starred sv :: post)))
    (hz : ∀ g ∈ pre ++ .Starred sv :: post, isZeroUseLambda g = false)
    (hnb : ∀ g ∈ post, isBareLambda g = false)
    (hd : stripDecorators f.decorator_list = .ok ds)
    (htext : containsStr f.sourceLine "pipe(" = true) :
    fast_pipes f = .error msgStarredFast := by
  obtain ⟨res, hres, hbadres⟩ := pipeFold_star_bad pre sv post v
    (fun g hg => hz g (by simp [hg]))
    (fun g hg => hz g (by simp [hg])) hnb
  have htrans : transformExpr f.body = .ok res := by
    rw [hb]
    have : transformExpr (.Call (.Name "pipe" c)
        (v :: (pre ++ .Starred sv :: post))) =
        pipeFold v (pre ++ .Starred sv :: post) := by
      simp [transformExpr]
    rw [this, hres]
  simp [fast_pipes, hd, htrans, hbadres, remapStarError, htext]

/-- C3 (witness): the amended theorem applied to the concrete function
returning `pipe(1, add_one, *fs)`. -/
theorem c3_starred_stage_fails_at_load_witness :
    containsStr c3Func.sourceLine "pipe(" = true ∧
    (∀ g ∈ [PyExpr.Name "add_one" .Load, PyExpr.Starred (.Name "fs" .Load)],
      isZeroUseLambda g = false) ∧
    fast_pipes c3Func = .error msgStarredFast := by
  refine ⟨by decide, by decide, ?_⟩
  exact c3_starred_stage_fails_at_load c3Func .Load (.Constant 1)
    (.Name "fs" .Load) [.Name "add_one" .Load] [] [] rfl
    (by decide) (by decide) rfl (by decide)

/-- C4 (counterexample): the zero-use validation failure is raised at
transform time, but its message carries a final stop, unlike the
message the claim quotes. -/
theorem c4_zero_use_message_counterexample :
    fast_pipes c4Func = .error msgNoArgs ∧
    msgNoArgs ≠ "This lambda has no arguments" := by
  refine ⟨rfl, by decide⟩

/-- C4 (amended): for every pipe call site inside a fast_pipes
function whose stage list holds a lambda with zero references to its
parameter (and whose decorator list strips without failing),
fast_pipes fails at transform time — before any rewritten function
exists to be called — with the ValueError message "This lambda has no
arguments." (final stop included). -/
theorem c4_zero_use_lambda_fails_at_transform (f : FuncDef) (c : PyCtx)
    (v : PyExpr) (fs ds : List PyExpr)
    (hb : f.body = .Call (.Name "pipe" c) (v :: fs))
    (hz : ∃ g ∈ fs, isZeroUseLambda g = true)
    (hd : stripDecorators f.decorator_list = .ok ds) :
    fast_pipes f = .error msgNoArgs := by
  have htrans : transformExpr f.body = pipeFold v fs := by
    rw [hb]; simp [transformExpr]
  have hfold := pipeFold_zero_use fs v hz
  simp [fast_pipes, hd, htrans, hfold]

/-- C4 (witness): the amended theorem applied to the concrete function
returning `pipe(1, lambda x: 5)`. -/
theorem c4_zero_use_lambda_fails_at_transform_witness :
    (∃ g ∈ [PyExpr.Lambda "x" (.Constant 5)], isZeroUseLambda g = true) ∧
    fast_pipes c4Func = .error msgNoArgs := by
  refine ⟨by decide, ?_⟩
  exact c4_zero_use_lambda_fails_at_transform c4Func .Load (.Constant 1)
    [.Lambda "x" (.Constant 5)] [] rfl (by decide) rfl

/-- C5 (counterexample): on `lambda x: (lambda x: x)(x)` the counter
returns 2, counting the reference inside the nested literal that
shadows the parameter, where the claim demands 1. -/
theorem c5_shadowed_reference_counterexample :
    countLambdaArgUses "x" c5Body = 2 ∧ scopedRefCount "x" c5Body = 1 ∧
    countLambdaArgUses "x" c5Body ≠ scopedRefCount "x" c5Body := by
  refine ⟨rfl, rfl, by decide⟩

/-- C5 (amended): for every single-parameter function literal the
Argument-Use Counter returns the number of references to the
parameter name anywhere in the body of the literal, including references
inside nested function literals that reuse (shadow) the name. -/
theorem c5_counter_counts_all_references (a : String) (body : PyExpr) :
    countLambdaArgUses a body = refCount a body :=
  countLambdaArgUses_eq a body

/-- C6 (counterexample): a decorator that is an attribute reference
(`@functools.cache`) is not the fast_pipes marker, yet the stripping
comprehension drops it. -/
theorem c6_attribute_decorator_counterexample :
    stripDecorators [c6AttrDec] = .ok [] ∧
    isFastPipesMarker c6AttrDec = false := by
  refine ⟨rfl, rfl⟩

/-- C6 (amended): on decorator lists whose entries are plain names or
calls of plain names, fast_pipes removes exactly the fast_pipes
markers — written with or without invocation parentheses — and keeps
every other decorator unchanged, in order; decorators of any other
shape are not preserved. -/
theorem c6_marker_stripping_on_simple_decorators (ds : List PyExpr)
    (h : ∀ d ∈ ds, isSimpleDecorator d = true) :
    stripDecorators ds = .ok (ds.filter (fun d => !(isFastPipesMarker d))) :=
  stripDecorators_simple ds h

/-- C6 (witness): the amended theorem applied to a list holding both
marker spellings and two other decorators. -/
theorem c6_marker_stripping_on_simple_decorators_witness :
    (∀ d ∈ c6Decs, isSimpleDecorator d = true) ∧
    stripDecorators c6Decs =
      .ok [.Name "staticmethod" .Load, .Call (.Name "wraps" .Load) [.Name "g" .Load]] := by
  refine ⟨by decide, ?_⟩
  rw [c6_marker_stripping_on_simple_decorators c6Decs (by decide)]
  rfl

/-- C8: for every inspection function and every value, the callable
built by pipe_bridge performs the inspection on the value (its state
effect is exactly that of the inspection) and hands back the value itself
unchanged, so it can sit inside a pipeline without altering the piped
value. -/
theorem c8_pipe_bridge_returns_input {A S B : Type}
    (func : A → S → B × S) (v : A) (s : S) :
    pipe_bridge func v s = (v, (func v s).2) := rfl

/-- C10: calling the runtime dispatcher with a value and no functions
returns the value unchanged. -/
theorem c10_pipe_empty_identity {A : Type} (v : A) :
    pipe v none none none none none none none none none none none none
      none none none none none none none none = v := rfl

/-- C9: for every value and every list of at most twenty unary
functions passed positionally, the fixed-arity dispatcher returns
the same result as the unbounded-arity fallback: both apply the
functions to the value strictly left to right. -/
theorem c9_pipe_agrees_with_fallback {A : Type} (v : A)
    (fs : List (A → A)) (h : fs.length ≤ 20) :
    pipeOfList v fs = arbitary_length_pipe v fs := by
  match fs with
  | [] => rfl
  | [f0] => rfl
  | [f0, f1] => rfl
  | [f0, f1, f2] => rfl
  | [f0, f1, f2, f3] => rfl
  | [f0, f1, f2, f3, f4] => rfl
  | [f0, f1, f2, f3, f4, f5] => rfl
  | [f0, f1, f2, f3, f4, f5, f6] => rfl
  | [f0, f1, f2, f3, f4, f5, f6, f7] => rfl
  | [f0, f1, f2, f3, f4, f5, f6, f7, f8] => rfl
  | [f0, f1, f2, f3, f4, f5, f6, f7, f8, f9] => rfl
  | [f0, f1, f2, f3, f4, f5, f6, f7, f8, f9, f10] => rfl
  | [f0, f1, f2, f3, f4, f5, f6, f7, f8, f9, f10, f11] => rfl
  | [f0, f1, f2, f3, f4, f5, f6, f7, f8, f9, f10, f11, f12] => rfl
  | [f0, f1, f2, f3, f4, f5, f6, f7, f8, f9, f10, f11, f12, f13] => rfl
  | [f0, f1, f2, f3, f4, f5, f6, f7, f8, f9, f10, f11, f12, f13, f14] => rfl
  | [f0, f1, f2, f3, f4, f5, f6, f7, f8, f9, f10, f11, f12, f13, f14, f15] => rfl
  | [f0, f1, f2, f3, f4, f5, f6, f7, f8, f9, f10, f11, f12, f13, f14, f15, f16] => rfl
  | [f0, f1, f2, f3, f4, f5, f6, f7, f8, f9, f10, f11, f12, f13, f14, f15, f16, f17] => rfl
  | [f0, f1, f2, f3, f4, f5, f6, f7, f8, f9, f10, f11, f12, f13, f14, f15, f16, f17, f18] => rfl
  | [f0, f1, f2, f3, f4, f5, f6, f7, f8, f9, f10, f11, f12, f13, f14, f15, f16, f17, f18, f19] => rfl
  | f0 :: f1 :: f2 :: f3 :: f4 :: f5 :: f6 :: f7 :: f8 :: f9 :: f10 :: f11 :: f12 :: f13 :: f14 :: f15 :: f16 :: f17 :: f18 :: f19 :: f20 :: rest => simp [List.length] at h

/-- C9 (witness): the dispatcher and the fallback agree on a concrete
two-stage pipeline. -/
theorem c9_pipe_agrees_with_fallback_witness :
    ([fun n => n + 1, fun n => n * 2] : List (Int → Int)).length ≤ 20 ∧
    pipeOfList (3 : Int) [fun n => n + 1, fun n => n * 2] =
      arbitary_length_pipe (3 : Int) [fun n => n + 1, fun n => n * 2] := by
  refine ⟨by decide, ?_⟩
  exact c9_pipe_agrees_with_fallback 3 [fun n => n + 1, fun n => n * 2]
    (by decide)
